import Mathlib

/-!
# Verification of the PDF-to-Excel converter (src/app.py)

Shallow embedding of the orchestration logic of `src/app.py`:

* a pandas `DataFrame` is a header row (`cols`) plus a rectangular grid of
  cells, where a cell is `Option String` (`none` models NaN / missing);
* `dropna_rows` / `dropna_cols` embed `df.dropna(how=all, axis=0/1)`
  (pandas drops a row/column whose every value is NA; on an empty axis the
  vacuous `all` also drops, matching pandas `count == 0` semantics);
* `convert_pdf_to_excel` embeds the function of the same name.  The external
  engine `tabula.read_pdf` is a parameter `read_pdf : Mode → Except String
  (List DF)`; the code calls it once with `stream=True, lattice=False`,
  i.e. at `Mode.stream`.  Possible exceptions raised by `df.to_excel` while
  writing table `i` are a parameter `wfail : Nat → Option String`.
* The in-memory output buffer (`io.BytesIO`) is modelled as the list of
  workbooks flushed into it, in order.  the pandas `ExcelWriter.__exit__`
  unconditionally calls `close()`, which saves the workbook even when the
  `with` block is left by an exception; hence a workbook holding the sheets
  written before the exception is flushed to the buffer, and the `Error`
  workbook written by the `except` branch is appended after it.  An empty
  buffer (`[]`) models the zero-length byte string.
* the module-level batch loop stores results in a Python dict keyed by
  `uploaded_file.name.replace(.pdf, .xlsx)`; `dictInsert` embeds dict
  assignment (overwrite keeps the original key position), and `strReplace`
  embeds Python `str.replace` (replace every occurrence, left to right).
* `package` embeds the download branch: one entry is offered directly,
  more than one entry is zipped as `converted_pdfs.zip`.
-/

/-- A cell value; `none` models pandas NaN / a missing value. -/
abbrev Cell := Option String

/-- A pandas DataFrame: column headers plus a grid of cell values. -/
structure DF where
  cols : List String
  rows : List (List Cell)
deriving DecidableEq, Repr

/-- A DataFrame is rectangular: every row has one cell per column. -/
def DF.rect (df : DF) : Prop :=
  ∀ r ∈ df.rows, r.length = df.cols.length

instance (df : DF) : Decidable df.rect := by
  unfold DF.rect; infer_instance

/-- Whether a cell is NA. -/
def cellNA (c : Cell) : Bool := c.isNone

/-- Whether every cell of a row is NA. -/
def rowAllNA (r : List Cell) : Bool := r.all cellNA

/-- Cell of a row at column index `j` (out of range reads as NA). -/
def getCell (r : List Cell) (j : Nat) : Cell := r[j]?.getD none

/-- Whether column `j` is NA in every row. -/
def colAllNA (rows : List (List Cell)) (j : Nat) : Bool :=
  rows.all (fun r => cellNA (getCell r j))

/-- `df.dropna(how=all, axis=0)`: drop every fully-NA row. -/
def dropna_rows (df : DF) : DF :=
  ⟨df.cols, df.rows.filter (fun r => !rowAllNA r)⟩

/-- Column indices kept by `df.dropna(how=all, axis=1)`. -/
def keptCols (df : DF) : List Nat :=
  (List.range df.cols.length).filter (fun j => !colAllNA df.rows j)

/-- Restrict a row to the kept column indices. -/
def projRow (ks : List Nat) (r : List Cell) : List Cell :=
  ks.map (fun j => getCell r j)

/-- `df.dropna(how=all, axis=1)`: drop every fully-NA column. -/
def dropna_cols (df : DF) : DF :=
  ⟨(keptCols df).map (fun j => df.cols[j]?.getD ""),
   df.rows.map (projRow (keptCols df))⟩

/-- Lines 55-56 of app.py: drop fully-NA rows, then fully-NA columns. -/
def cleanup (df : DF) : DF := dropna_cols (dropna_rows df)

/-- pandas `df.empty`: true when either axis has length zero. -/
def dfEmpty (df : DF) : Bool := df.rows.isEmpty || df.cols.isEmpty

/-- The table has at least one non-NA cell. -/
def hasNonEmptyCell (df : DF) : Bool :=
  df.rows.any (fun r => r.any (fun c => !cellNA c))

/-- One worksheet of the output workbook. -/
structure Sheet where
  name : String
  data : DF
deriving DecidableEq, Repr

/-- An xlsx workbook: its sheets in order. -/
abbrev Workbook := List Sheet

/-- Line 60 of app.py: `sheet_name = f"Table {i + 1}"`. -/
def sheetNameOf (i : Nat) : String := "Table " ++ toString (i + 1)

/-- The writing loop of lines 53-61: for each table, clean it up, skip it if
it is empty, otherwise write it as sheet `Table (i+1)`; `wfail i` models an
exception raised by `df.to_excel` at index `i`.  Returns the sheets written
before any failure, and the failure message if one occurred. -/
def writeLoop (wfail : Nat → Option String) :
    Nat → List DF → List Sheet × Option String
  | _, [] => ([], none)
  | i, df :: rest =>
    let d := cleanup df
    if dfEmpty d then
      writeLoop wfail (i + 1) rest
    else
      match wfail i with
      | some e => ([], some e)
      | none =>
        let p := writeLoop wfail (i + 1) rest
        (⟨sheetNameOf i, d⟩ :: p.1, p.2)

/-- The sheets produced by the writing loop when no write raises. -/
def writeSheets (ts : List DF) : List Sheet :=
  (writeLoop (fun _ => none) 0 ts).1

/-- The detection mode of a `tabula.read_pdf` call. -/
inductive Mode
  | lattice
  | stream
deriving DecidableEq, Repr

/-- Result of converting one document: the workbooks flushed to the output
buffer in order, the extractor invocations made, and the error messages
shown via `st.error`. -/
structure ConvResult where
  buffer : List Workbook
  modes : List Mode
  errors : List String
deriving DecidableEq, Repr

/-- Line 28 of app.py (quotes of the source message elided). -/
def javaErrMsg : String :=
  "It looks like the java command is not found. Please ensure Java is installed and configured correctly."

/-- Line 64 of app.py: the `st.error` message of the `except` branch. -/
def procErrMsg (name e : String) : String :=
  "An error occurred while processing " ++ name ++ ": " ++ e

/-- Line 66 of app.py: the error DataFrame. -/
def errDF (e : String) : DF :=
  ⟨["Error"], [[some ("Failed to process PDF: " ++ e)]]⟩

/-- Lines 66-68 of app.py: the one-sheet `Error` workbook. -/
def errorWB (e : String) : Workbook := [⟨"Error", errDF e⟩]

/-- Line 47 of app.py: the placeholder DataFrame for zero tables. -/
def msgDF : DF := ⟨["Message"], [["No tables found in PDF."]]⟩

/-- `convert_pdf_to_excel` of app.py (lines 18-72).  `javaOk` is whether
`subprocess.run(["java", "-version"], check=True)` succeeds; `read_pdf` is
the external extraction engine for this document; `wfail` models exceptions
raised while writing.  The code invokes the engine exactly once, with
`stream=True, lattice=False`. -/
def convert_pdf_to_excel (javaOk : Bool) (name : String)
    (read_pdf : Mode → Except String (List DF))
    (wfail : Nat → Option String) : ConvResult :=
  if javaOk then
    match read_pdf Mode.stream with
    | .error e => ⟨[errorWB e], [Mode.stream], [procErrMsg name e]⟩
    | .ok ts =>
      let tables := if ts.isEmpty then [msgDF] else ts
      let p := writeLoop wfail 0 tables
      match p.2 with
      | none => ⟨[p.1], [Mode.stream], []⟩
      | some e => ⟨[p.1, errorWB e], [Mode.stream], [procErrMsg name e]⟩
  else
    ⟨[], [], [javaErrMsg]⟩

/-- Python `str.replace` on character lists, fuelled (one character of the
input is consumed per step, so `fuel = s.length` suffices). -/
def strReplaceGo (pat repl : List Char) : Nat → List Char → List Char
  | _, [] => []
  | 0, rest => rest
  | fuel + 1, c :: cs =>
    if !pat.isEmpty && pat.isPrefixOf (c :: cs) then
      repl ++ strReplaceGo pat repl fuel ((c :: cs).drop pat.length)
    else
      c :: strReplaceGo pat repl fuel cs

/-- Python `str.replace`: replace every occurrence, scanning left to right. -/
def strReplace (pat repl s : List Char) : List Char :=
  strReplaceGo pat repl s.length s

/-- Line 105 of app.py: `uploaded_file.name.replace(.pdf, .xlsx)`. -/
def excel_filename (n : String) : String :=
  ⟨strReplace ".pdf".toList ".xlsx".toList n.toList⟩

/-- One uploaded document together with the behaviour of the external
world on it: the answer of the engine and the write-failure oracle. -/
structure Doc where
  name : String
  read_pdf : Mode → Except String (List DF)
  wfail : Nat → Option String

/-- The output bytes of one document: the workbooks in its buffer. -/
abbrev Bytes := List Workbook

/-- Python dict assignment `d[k] = v`: overwrite keeps the original key
position, a new key is appended at the end. -/
def dictInsert (k : String) (v : Bytes) :
    List (String × Bytes) → List (String × Bytes)
  | [] => [(k, v)]
  | (k', v') :: rest =>
    if k' = k then (k', v) :: rest else (k', v') :: dictInsert k v rest

/-- The per-document bytes produced by the batch loop body (lines 99-102). -/
def docBytes (javaOk : Bool) (d : Doc) : Bytes :=
  (convert_pdf_to_excel javaOk d.name d.read_pdf d.wfail).buffer

/-- The batch loop of lines 94-106: convert each document and store its
bytes in the `excel_files` dict under the derived filename. -/
def batch (javaOk : Bool) (docs : List Doc) : List (String × Bytes) :=
  docs.foldl (fun acc d => dictInsert (excel_filename d.name) (docBytes javaOk d) acc) []

/-- What the download section offers. -/
inductive Packaged
  | nothing
  | single (name : String) (data : Bytes)
  | zipped (name : String) (entries : List (String × Bytes))
deriving DecidableEq, Repr

/-- Lines 108-138 of app.py: nothing for an empty dict, the single entry
directly when there is exactly one, otherwise a zip of all entries named
`converted_pdfs.zip`. -/
def package : List (String × Bytes) → Packaged
  | [] => .nothing
  | [(n, b)] => .single n b
  | files => .zipped "converted_pdfs.zip" files

/-! ## Facts about normalization (claim C1) -/

lemma strReplaceGo_nil (pat repl : List Char) (fuel : Nat) :
    strReplaceGo pat repl fuel [] = [] := by
  cases fuel <;> rfl

lemma rowAllNA_eq_false_of_mem {r : List Cell} {c : Cell}
    (hc : c ∈ r) (hna : cellNA c = false) : rowAllNA r = false := by
  unfold rowAllNA
  rcases h : r.all cellNA with _ | _
  · rfl
  · exact absurd (List.all_eq_true.mp h c hc) (by simp [hna])

lemma cleanup_rows_eq (df : DF) :
    (cleanup df).rows
      = (dropna_rows df).rows.map (projRow (keptCols (dropna_rows df))) := rfl

lemma cleanup_cols_len (df : DF) :
    (cleanup df).cols.length = (keptCols (dropna_rows df)).length := by
  simp [cleanup, dropna_cols]

lemma colAllNA_eq_false_of_mem {rows : List (List Cell)} {r : List Cell} {j : Nat}
    (hr : r ∈ rows) (hna : cellNA (getCell r j) = false) : colAllNA rows j = false := by
  unfold colAllNA
  rcases h : rows.all (fun r => cellNA (getCell r j)) with _ | _
  · rfl
  · exact absurd (List.all_eq_true.mp h r hr) (by simp [hna])

/-- Every row surviving cleanup keeps a non-NA cell. -/
lemma cleanup_no_na_row (df : DF) (hrect : df.rect) :
    ∀ r ∈ (cleanup df).rows, rowAllNA r = false := by
  intro r' hr'
  rw [cleanup_rows_eq] at hr'
  rcases List.mem_map.mp hr' with ⟨r, hr, rfl⟩
  have hfil : r ∈ df.rows ∧ rowAllNA r = false := by
    simpa [dropna_rows, List.mem_filter] using hr
  -- extract a non-NA cell of r
  have : ∃ c ∈ r, cellNA c = false := by
    by_contra hno
    push_neg at hno
    have : rowAllNA r = true := by
      unfold rowAllNA
      exact List.all_eq_true.mpr (fun c hc => by
        rcases h : cellNA c with _ | _
        · exact absurd h (hno c hc)
        · rfl)
    simp [this] at hfil
  rcases this with ⟨c, hcmem, hcna⟩
  rcases List.mem_iff_getElem?.mp hcmem with ⟨j, hj⟩
  have hjr : j < r.length := by
    rcases List.getElem?_eq_some.mp hj with ⟨h, _⟩
    exact h
  have hjw : j < df.cols.length := hrect r hfil.1 ▸ hjr
  have hcell : getCell r j = c := by simp [getCell, hj]
  have hcol : colAllNA (dropna_rows df).rows j = false :=
    colAllNA_eq_false_of_mem hr (by simp [hcell, hcna])
  have hjK : j ∈ keptCols (dropna_rows df) := by
    refine List.mem_filter.mpr ⟨List.mem_range.mpr ?_, by simp [hcol]⟩
    simpa [dropna_rows] using hjw
  exact rowAllNA_eq_false_of_mem
    (List.mem_map.mpr ⟨j, hjK, by simp [hcell]⟩) hcna

/-- Every column surviving cleanup keeps a non-NA cell. -/
lemma cleanup_no_na_col (df : DF) :
    ∀ k, k < (cleanup df).cols.length → colAllNA (cleanup df).rows k = false := by
  intro k hk
  rw [cleanup_cols_len] at hk
  set K := keptCols (dropna_rows df) with hK
  have hj : K[k]? = some K[k] := List.getElem?_eq_getElem hk
  have hjK : K[k] ∈ K := List.getElem_mem hk
  have hfil := List.mem_filter.mp hjK
  have hcol : colAllNA (dropna_rows df).rows K[k] = false := by
    have := hfil.2
    simpa using this
  -- some surviving row has a non-NA cell in source column K[k]
  have : ∃ r ∈ (dropna_rows df).rows, cellNA (getCell r K[k]) = false := by
    by_contra hno
    push_neg at hno
    have : colAllNA (dropna_rows df).rows K[k] = true := by
      unfold colAllNA
      exact List.all_eq_true.mpr (fun r hr => by
        rcases h : cellNA (getCell r K[k]) with _ | _
        · exact absurd h (hno r hr)
        · rfl)
    simp [this] at hcol
  rcases this with ⟨r, hr, hna⟩
  have hmem : projRow K r ∈ (cleanup df).rows := by
    rw [cleanup_rows_eq]
    exact List.mem_map.mpr ⟨r, hr, rfl⟩
  have hgc : getCell (projRow K r) k = getCell r K[k] := by
    simp [projRow, getCell, List.getElem?_map, hj]
  exact colAllNA_eq_false_of_mem hmem (by rw [hgc]; exact hna)

/-- A table with no non-NA cell loses all its rows to `dropna_rows`. -/
lemma dropna_rows_nil_of_all_na (df : DF) (h : hasNonEmptyCell df = false) :
    (dropna_rows df).rows = [] := by
  simp only [dropna_rows]
  rw [List.filter_eq_nil_iff]
  intro r hr
  have hall : rowAllNA r = true := by
    unfold rowAllNA
    rw [List.all_eq_true]
    intro c hc
    by_contra hcn
    have hcf : cellNA c = false := by
      rcases hcb : cellNA c with _ | _
      · rfl
      · exact absurd hcb hcn
    have h1 : r.any (fun c => !cellNA c) = true :=
      List.any_eq_true.mpr ⟨c, hc, by simp [hcf]⟩
    have h2 : hasNonEmptyCell df = true := by
      unfold hasNonEmptyCell
      exact List.any_eq_true.mpr ⟨r, hr, h1⟩
    simp [h2] at h
  simp [hall]

lemma cleanup_empty_of_all_na (df : DF) (h : hasNonEmptyCell df = false) :
    dfEmpty (cleanup df) = true := by
  have h1 := dropna_rows_nil_of_all_na df h
  simp [cleanup, dropna_cols, dfEmpty, h1]

/-- A table that is empty after cleanup contributes no sheet (line 59). -/
lemma writeLoop_skip (df : DF) (h : dfEmpty (cleanup df) = true) :
    ∀ (w : Nat → Option String) (i : Nat) (rest : List DF),
      writeLoop w i (df :: rest) = writeLoop w (i + 1) rest := by
  intro w i rest
  simp [writeLoop, h]

/-- What claim C1 asserts of a raw table `df`. -/
def normalizeSpec (df : DF) : Prop :=
  (hasNonEmptyCell df = true →
    (∀ r ∈ (cleanup df).rows, rowAllNA r = false) ∧
    (∀ k, k < (cleanup df).cols.length → colAllNA (cleanup df).rows k = false) ∧
    (dropna_rows df).rows.Sublist df.rows ∧
    (keptCols (dropna_rows df)).Sublist (List.range df.cols.length) ∧
    (cleanup df).rows
      = (dropna_rows df).rows.map (projRow (keptCols (dropna_rows df)))) ∧
  (hasNonEmptyCell df = false →
    dfEmpty (cleanup df) = true ∧
    ∀ (w : Nat → Option String) (i : Nat) (rest : List DF),
      writeLoop w i (df :: rest) = writeLoop w (i + 1) rest)

/-- C1: normalization (drop fully-empty rows, then fully-empty columns) of a
raw table with at least one non-empty cell yields a grid with no fully-empty
row and no fully-empty column, its surviving rows being an order-preserving
sublist of the original rows and its surviving columns an order-preserving
sublist of the original column indices; an entirely empty raw table cleans
up to an empty grid and the writing loop produces no sheet for it. -/
theorem normalize_correct (df : DF) (hrect : df.rect) : normalizeSpec df := by
  refine ⟨fun _ => ⟨cleanup_no_na_row df hrect, cleanup_no_na_col df, ?_, ?_, cleanup_rows_eq df⟩, fun h => ⟨cleanup_empty_of_all_na df h, writeLoop_skip df (cleanup_empty_of_all_na df h)⟩⟩
  · exact List.filter_sublist df.rows
  · exact List.filter_sublist (List.range df.cols.length)

/-- Concrete normalization example: a 3x3 grid whose middle row and middle
column are fully empty. -/
def dfC1 : DF :=
  ⟨["A", "B", "C"],
   [[some "a", none, none],
    [none, none, none],
    [none, none, some "c"]]⟩

/-- Witness for C1 at `dfC1`. -/
theorem normalize_correct_witness : dfC1.rect ∧ normalizeSpec dfC1 :=
  ⟨by decide, normalize_correct dfC1 (by decide)⟩

/-! ## Extractor invocation trace (claims C2, C3) -/

/-- Sample extracted table with a single non-empty cell. -/
def dfX : DF := ⟨["A"], [[some "x"]]⟩

/-- A second sample extracted table. -/
def dfY : DF := ⟨["B"], [[some "y"]]⟩

/-- `convert_pdf_to_excel` invokes the engine exactly once, in stream mode,
whenever the java check passes, and never otherwise. -/
lemma convert_modes (javaOk : Bool) (name : String)
    (read_pdf : Mode → Except String (List DF)) (wfail : Nat → Option String) :
    (convert_pdf_to_excel javaOk name read_pdf wfail).modes
      = if javaOk then [Mode.stream] else [] := by
  cases javaOk with
  | false => rfl
  | true =>
    simp only [convert_pdf_to_excel, if_pos]
    cases hext : read_pdf Mode.stream with
    | error e => rfl
    | ok ts =>
      simp only []
      cases (writeLoop wfail 0 (if ts.isEmpty then [msgDF] else ts)).2 with
      | none => rfl
      | some e => rfl

/-- C2 (counterexample): for a concrete document on which the engine succeeds
in every mode, the only extractor invocation is in stream mode — the first
invocation is not the bordered/lattice mode the claim requires. -/
theorem lattice_first_counterexample :
    (convert_pdf_to_excel true "doc.pdf" (fun _ => Except.ok [dfX])
        (fun _ => none)).modes = [Mode.stream] ∧
    (convert_pdf_to_excel true "doc.pdf" (fun _ => Except.ok [dfX])
        (fun _ => none)).modes.head? ≠ some Mode.lattice := by
  decide

/-- C2 (amended): the extractor is invoked exactly once per document, in
heuristic/stream mode (`stream=True, lattice=False`); there is no
bordered/lattice attempt and no fallback invocation, and no invocation at
all when the java check fails. -/
theorem stream_only_invocation (javaOk : Bool) (name : String)
    (read_pdf : Mode → Except String (List DF)) (wfail : Nat → Option String) :
    (convert_pdf_to_excel javaOk name read_pdf wfail).modes
      = if javaOk then [Mode.stream] else [] :=
  convert_modes javaOk name read_pdf wfail

/-! ## Error replacement (claim C3) -/

/-- The table list actually iterated by the writer (line 44-48). -/
def effTables (ts : List DF) : List DF := if ts.isEmpty then [msgDF] else ts

/-- C3 (counterexample): a document whose second table raises while being
written.  pandas flushes the partially-written workbook when the `with`
block unwinds, so the output buffer holds the partial workbook followed by
the `Error` workbook — it is not solely the one-sheet `Error` document. -/
theorem error_wholesale_counterexample :
    (convert_pdf_to_excel true "doc.pdf" (fun _ => Except.ok [dfX, dfY])
        (fun i => if i == 1 then some "boom" else none)).buffer
      = [[⟨"Table 1", dfX⟩], errorWB "boom"] ∧
    (convert_pdf_to_excel true "doc.pdf" (fun _ => Except.ok [dfX, dfY])
        (fun i => if i == 1 then some "boom" else none)).buffer
      ≠ [errorWB "boom"] := by
  decide

/-- C3 (amended): if extraction raises, the per-document output bytes are
solely the one-sheet `Error` workbook holding the stringified failure; if
writing raises mid-document, the sheets already written are flushed as a
workbook and the one-sheet `Error` workbook is appended after it, so bytes
of the partially-processed document remain in the output. -/
theorem error_replacement (name : String)
    (read_pdf : Mode → Except String (List DF))
    (wfail : Nat → Option String) (e : String) :
    (read_pdf Mode.stream = .error e →
      (convert_pdf_to_excel true name read_pdf wfail).buffer = [errorWB e]) ∧
    (∀ ts, read_pdf Mode.stream = .ok ts →
      (writeLoop wfail 0 (effTables ts)).2 = some e →
      (convert_pdf_to_excel true name read_pdf wfail).buffer
        = [(writeLoop wfail 0 (effTables ts)).1, errorWB e]) := by
  constructor
  · intro hext
    simp [convert_pdf_to_excel, hext]
  · intro ts hext hw
    simp only [convert_pdf_to_excel, if_pos, hext, effTables] at *
    rw [hw]

/-- Witness for C3: a document whose extraction raises yields exactly the
one-sheet `Error` workbook. -/
theorem error_replacement_witness :
    ((fun _ => Except.error "bad" : Mode → Except String (List DF)) Mode.stream
        = Except.error "bad") ∧
    (convert_pdf_to_excel true "doc.pdf" (fun _ => Except.error "bad")
        (fun _ => none)).buffer = [errorWB "bad"] :=
  ⟨rfl, (error_replacement "doc.pdf" (fun _ => Except.error "bad")
    (fun _ => none) "bad").1 rfl⟩

/-! ## Batch packaging (claims C4, C5) -/

/-- The dict entry the batch loop produces for a document. -/
def entryOf (javaOk : Bool) (d : Doc) : String × Bytes :=
  (excel_filename d.name, docBytes javaOk d)

/-- C4: a batch result with exactly one entry is offered directly as that
bytes of that entry under its derived filename, never wrapped in an archive; in
particular a one-document batch is offered as the converted
bytes under its derived filename. -/
theorem single_entry_direct :
    (∀ (n : String) (b : Bytes), package [(n, b)] = Packaged.single n b) ∧
    (∀ (javaOk : Bool) (d : Doc),
      package (batch javaOk [d])
        = Packaged.single (excel_filename d.name) (docBytes javaOk d)) :=
  ⟨fun _ _ => rfl, fun _ _ => rfl⟩

lemma dictInsert_of_not_mem (k : String) (v : Bytes) :
    ∀ acc : List (String × Bytes), k ∉ acc.map Prod.fst →
      dictInsert k v acc = acc ++ [(k, v)] := by
  intro acc
  induction acc with
  | nil => intro _; rfl
  | cons p rest ih =>
    intro h
    simp only [List.map_cons, List.mem_cons] at h
    push_neg at h
    simp only [dictInsert]
    rw [if_neg (fun hh => h.1 hh.symm), ih h.2]
    simp

lemma batch_foldl_of_nodup (javaOk : Bool) :
    ∀ (docs : List Doc) (acc : List (String × Bytes)),
      (acc.map Prod.fst ++ docs.map (fun d => excel_filename d.name)).Nodup →
      docs.foldl
          (fun acc d => dictInsert (excel_filename d.name) (docBytes javaOk d) acc)
          acc
        = acc ++ docs.map (entryOf javaOk) := by
  intro docs
  induction docs with
  | nil => intro acc _; simp
  | cons d ds ih =>
    intro acc hnd
    have hsplit := List.nodup_append.mp hnd
    have hkey : excel_filename d.name ∉ acc.map Prod.fst := by
      intro hmem
      exact hsplit.2.2 hmem (by simp)
    simp only [List.foldl_cons]
    rw [dictInsert_of_not_mem _ _ acc hkey]
    have hnd' : ((acc ++ [(excel_filename d.name, docBytes javaOk d)]).map Prod.fst
        ++ ds.map (fun d => excel_filename d.name)).Nodup := by
      simp only [List.map_append, List.map_cons, List.map_nil]
      rw [List.append_assoc, List.singleton_append]
      exact hnd
    rw [ih _ hnd']
    simp [entryOf]

/-- C5 (counterexample): two documents with the same name `a.pdf` collide on
the derived filename; the dict keeps a single entry, so the packager offers
a single spreadsheet rather than a two-entry ZIP archive. -/
theorem zip_two_entries_counterexample :
    package (batch true [⟨"a.pdf", fun _ => Except.ok [dfX], fun _ => none⟩,
        ⟨"a.pdf", fun _ => Except.ok [dfX], fun _ => none⟩])
      = Packaged.single "a.xlsx" [[⟨"Table 1", dfX⟩]] ∧
    (batch true [⟨"a.pdf", fun _ => Except.ok [dfX], fun _ => none⟩,
        ⟨"a.pdf", fun _ => Except.ok [dfX], fun _ => none⟩]).length ≠ 2 := by
  decide

/-- C5 (amended): for a batch of N>1 documents whose derived filenames are
pairwise distinct, the packager returns a ZIP archive named
`converted_pdfs.zip` with exactly N entries, in input order, each named by
the derived-filename rule and holding byte-for-byte the bytes a
single-document batch would produce for that document; when derived
filenames collide, later documents overwrite earlier entries and fewer than
N entries remain. -/
theorem zip_batch_packaging (javaOk : Bool) (docs : List Doc)
    (hlen : 2 ≤ docs.length)
    (hnd : (docs.map (fun d => excel_filename d.name)).Nodup) :
    batch javaOk docs = docs.map (entryOf javaOk) ∧
    (batch javaOk docs).length = docs.length ∧
    package (batch javaOk docs)
      = Packaged.zipped "converted_pdfs.zip" (docs.map (entryOf javaOk)) ∧
    ∀ d ∈ docs, batch javaOk [d] = [entryOf javaOk d] := by
  have hb : batch javaOk docs = docs.map (entryOf javaOk) := by
    have := batch_foldl_of_nodup javaOk docs [] (by simpa using hnd)
    simpa [batch] using this
  refine ⟨hb, by simp [hb], ?_, fun d _ => rfl⟩
  rw [hb]
  rcases docs with _ | ⟨d1, _ | ⟨d2, ds⟩⟩
  · simp at hlen
  · simp at hlen
  · rfl

/-- Witness for C5 at a concrete two-document batch with distinct names. -/
theorem zip_batch_packaging_witness :
    2 ≤ ([⟨"a.pdf", fun _ => Except.ok [dfX], fun _ => none⟩,
          ⟨"b.pdf", fun _ => Except.ok [dfY], fun _ => none⟩] : List Doc).length ∧
    (([⟨"a.pdf", fun _ => Except.ok [dfX], fun _ => none⟩,
       ⟨"b.pdf", fun _ => Except.ok [dfY], fun _ => none⟩] : List Doc).map
        (fun d => excel_filename d.name)).Nodup ∧
    package (batch true [⟨"a.pdf", fun _ => Except.ok [dfX], fun _ => none⟩,
        ⟨"b.pdf", fun _ => Except.ok [dfY], fun _ => none⟩])
      = Packaged.zipped "converted_pdfs.zip"
          (([⟨"a.pdf", fun _ => Except.ok [dfX], fun _ => none⟩,
             ⟨"b.pdf", fun _ => Except.ok [dfY], fun _ => none⟩] : List Doc).map
            (entryOf true)) :=
  ⟨by decide, by decide,
    (zip_batch_packaging true _ (by decide) (by decide)).2.2.1⟩

/-! ## Sheet naming (claim C6) -/

/-- Every sheet emitted by the writing loop is named by the pre-filter
position of its source table. -/
lemma writeLoop_mem_named (w : Nat → Option String) :
    ∀ (ts : List DF) (i : Nat) (s : Sheet), s ∈ (writeLoop w i ts).1 →
      ∃ k df, ts[k]? = some df ∧ dfEmpty (cleanup df) = false ∧
        s = ⟨sheetNameOf (i + k), cleanup df⟩ := by
  intro ts
  induction ts with
  | nil => intro i s hs; simp [writeLoop] at hs
  | cons df rest ih =>
    intro i s hs
    by_cases hemp : dfEmpty (cleanup df) = true
    · rw [writeLoop_skip df hemp] at hs
      rcases ih (i + 1) s hs with ⟨k, df', hget, hne, hname⟩
      exact ⟨k + 1, df', by simpa using hget, hne,
        by have h : i + 1 + k = i + (k + 1) := by omega
           rw [hname, h]⟩
    · have hemp' : dfEmpty (cleanup df) = false := by
        rcases hb : dfEmpty (cleanup df) with _ | _
        · rfl
        · exact absurd hb hemp
      simp only [writeLoop, hemp', Bool.false_eq_true, if_false] at hs
      cases hw : w i with
      | some e => rw [hw] at hs; simp at hs
      | none =>
        rw [hw] at hs
        simp only [List.mem_cons] at hs
        rcases hs with hs | hs
        · exact ⟨0, df, by simp, hemp', by simpa using hs⟩
        · rcases ih (i + 1) s hs with ⟨k, df', hget, hne, hname⟩
          exact ⟨k + 1, df', by simpa using hget, hne,
            by have h : i + 1 + k = i + (k + 1) := by omega
               rw [hname, h]⟩

/-- Conversely, when no write raises, every non-empty cleaned table at
pre-filter position `k` yields the sheet named after slot `k`. -/
lemma writeLoop_named_mem :
    ∀ (ts : List DF) (i k : Nat) (df : DF), ts[k]? = some df →
      dfEmpty (cleanup df) = false →
      (⟨sheetNameOf (i + k), cleanup df⟩ : Sheet)
        ∈ (writeLoop (fun _ => none) i ts).1 := by
  intro ts
  induction ts with
  | nil => intro i k df hget _; simp at hget
  | cons df0 rest ih =>
    intro i k df hget hne
    cases k with
    | zero =>
      have hdf : df0 = df := by simpa using hget
      subst hdf
      simp [writeLoop, hne]
    | succ k' =>
      have hget' : rest[k']? = some df := by simpa using hget
      have hmem := ih (i + 1) k' df hget' hne
      have harith : i + 1 + k' = i + (k' + 1) := by omega
      by_cases hemp : dfEmpty (cleanup df0) = true
      · rw [writeLoop_skip df0 hemp]
        rw [harith] at hmem
        exact hmem
      · have hemp' : dfEmpty (cleanup df0) = false := by
          rcases hb : dfEmpty (cleanup df0) with _ | _
          · rfl
          · exact absurd hb hemp
        simp only [writeLoop, hemp', Bool.false_eq_true, if_false, List.mem_cons]
        right
        rw [harith] at hmem
        exact hmem

/-- C6 (counterexample): a concretely written sheet is named `Table 1`, with
a space — not `Table_1` as the claim requires. -/
theorem sheet_name_underscore_counterexample :
    (writeSheets [dfX]).map Sheet.name = ["Table 1"] ∧
    (writeSheets [dfX]).map Sheet.name ≠ ["Table_1"] := by
  decide

/-- C6 (amended): every written sheet is named `Table <k>` (with a space),
where `k` is the 1-based position of the table among all tables returned by the
extractor, including tables later dropped by normalization; conversely each
surviving table at pre-filter slot `k` yields the sheet of that name, so
dropped tables consume a name slot and leave gaps in surviving numbers. -/
theorem sheet_named_by_slot :
    (∀ (ts : List DF) (s : Sheet), s ∈ writeSheets ts →
      ∃ k df, ts[k]? = some df ∧ dfEmpty (cleanup df) = false ∧
        s = ⟨sheetNameOf k, cleanup df⟩) ∧
    (∀ (ts : List DF) (k : Nat) (df : DF), ts[k]? = some df →
      dfEmpty (cleanup df) = false →
      (⟨sheetNameOf k, cleanup df⟩ : Sheet) ∈ writeSheets ts) := by
  constructor
  · intro ts s hs
    rcases writeLoop_mem_named (fun _ => none) ts 0 s hs with ⟨k, df, hget, hne, hname⟩
    exact ⟨k, df, hget, hne, by simpa using hname⟩
  · intro ts k df hget hne
    have := writeLoop_named_mem ts 0 k df hget hne
    simpa [writeSheets] using this

/-- An entirely empty table, dropped by normalization. -/
def dfNA : DF := ⟨["A"], [[none]]⟩

/-- Witness for C6: in `[dfNA, dfX]` the first table is dropped, and the
surviving table is written as `Table 2` — slot 1 is consumed by the dropped
table. -/
theorem sheet_named_by_slot_witness :
    ([dfNA, dfX] : List DF)[1]? = some dfX ∧
    dfEmpty (cleanup dfX) = false ∧
    (⟨sheetNameOf 1, cleanup dfX⟩ : Sheet) ∈ writeSheets [dfNA, dfX] :=
  ⟨by decide, by decide,
    sheet_named_by_slot.2 [dfNA, dfX] 1 dfX (by decide) (by decide)⟩

/-! ## Derived filenames (claim C7) -/

lemma isPrefixOf_self {α} [BEq α] [LawfulBEq α] (l : List α) :
    l.isPrefixOf l = true := by
  induction l with
  | nil => simp
  | cons a as ih => simp [ih]

/-- When the pattern occurs in `stem ++ pat` only as the final suffix, the
left-to-right scan of `str.replace` copies `stem` and replaces the suffix. -/
lemma strReplaceGo_tail_only (pat repl : List Char) (hp : pat ≠ []) :
    ∀ (stem : List Char) (fuel : Nat), stem.length + pat.length ≤ fuel →
      (∀ i, i < stem.length → pat.isPrefixOf ((stem ++ pat).drop i) = false) →
      strReplaceGo pat repl fuel (stem ++ pat) = stem ++ repl := by
  intro stem
  induction stem with
  | nil =>
    intro fuel hfuel _
    simp only [List.nil_append]
    rcases pat with _ | ⟨p, ps⟩
    · exact absurd rfl hp
    · rcases fuel with _ | f
      · simp at hfuel
      · show strReplaceGo (p :: ps) repl (f + 1) (p :: ps) = [] ++ repl
        simp only [strReplaceGo, isPrefixOf_self, List.isEmpty_cons,
          Bool.not_false, Bool.and_self, if_true]
        rw [List.drop_length, strReplaceGo_nil]
        simp
  | cons c cs ih =>
    intro fuel hfuel h
    rcases fuel with _ | f
    · simp at hfuel
    · have hc0 : pat.isPrefixOf (c :: (cs ++ pat)) = false := by
        have := h 0 (by simp)
        simpa [List.cons_append] using this
      show strReplaceGo pat repl (f + 1) (c :: (cs ++ pat)) = (c :: cs) ++ repl
      simp only [strReplaceGo, hc0, Bool.and_false, Bool.false_eq_true, if_false]
      rw [ih f (by simp at hfuel ⊢; omega) (fun i hi => by
        have := h (i + 1) (by simp; omega)
        simpa [List.cons_append] using this)]
      rfl

/-- C7 (counterexample): the input `a.pdf.pdf` has stem `a.pdf`, so the claim
demands output `a.pdf.xlsx`; the code replaces every occurrence of `.pdf`
and produces `a.xlsx.xlsx`. -/
theorem derived_filename_counterexample :
    excel_filename "a.pdf.pdf" = "a.xlsx.xlsx" ∧
    excel_filename "a.pdf.pdf" ≠ "a.pdf.xlsx" := by
  decide

/-- C7 (amended): the output filename is the input filename with every
occurrence of the substring `.pdf` replaced by `.xlsx`; in particular, for
every input name in which `.pdf` occurs only as the final extension, the
output is deterministically `<input-stem>.xlsx`. -/
theorem derived_filename (stem : List Char)
    (h : ∀ i, i < stem.length →
      ".pdf".toList.isPrefixOf ((stem ++ ".pdf".toList).drop i) = false) :
    excel_filename ⟨stem ++ ".pdf".toList⟩ = ⟨stem ++ ".xlsx".toList⟩ := by
  show String.mk (strReplace ".pdf".toList ".xlsx".toList (stem ++ ".pdf".toList))
      = String.mk (stem ++ ".xlsx".toList)
  congr 1
  unfold strReplace
  exact strReplaceGo_tail_only ".pdf".toList ".xlsx".toList (by decide) stem
    (stem ++ ".pdf".toList).length (by simp) h

/-- Witness for C7 at the ordinary input `report.pdf`. -/
theorem derived_filename_witness :
    (∀ i, i < "report".toList.length →
      ".pdf".toList.isPrefixOf
        (("report".toList ++ ".pdf".toList).drop i) = false) ∧
    excel_filename ⟨"report".toList ++ ".pdf".toList⟩
      = ⟨"report".toList ++ ".xlsx".toList⟩ :=
  ⟨by decide, derived_filename "report".toList (by decide)⟩

/-! ## Java precondition and batch continuation (claims C8, C9, C10) -/

lemma dictInsert_key_mem (k : String) (v : Bytes) :
    ∀ acc : List (String × Bytes), k ∈ (dictInsert k v acc).map Prod.fst := by
  intro acc
  induction acc with
  | nil => simp [dictInsert]
  | cons p rest ih =>
    simp only [dictInsert]
    by_cases h : p.1 = k
    · rw [if_pos h]; simp [h]
    · rw [if_neg h]; simp [ih]

lemma dictInsert_key_mono (k : String) (v : Bytes) (k0 : String) :
    ∀ acc : List (String × Bytes), k0 ∈ acc.map Prod.fst →
      k0 ∈ (dictInsert k v acc).map Prod.fst := by
  intro acc
  induction acc with
  | nil => intro h; simp at h
  | cons p rest ih =>
    intro h
    simp only [List.map_cons, List.mem_cons] at h
    simp only [dictInsert]
    by_cases hp : p.1 = k
    · rw [if_pos hp]
      rcases h with h | h
      · simp [h]
      · simp [h]
    · rw [if_neg hp]
      rcases h with h | h
      · simp [h]
      · simp [ih h]

lemma batch_key_mono (javaOk : Bool) :
    ∀ (docs : List Doc) (acc : List (String × Bytes)) (k0 : String),
      k0 ∈ acc.map Prod.fst →
      k0 ∈ (docs.foldl
        (fun acc d => dictInsert (excel_filename d.name) (docBytes javaOk d) acc)
        acc).map Prod.fst := by
  intro docs
  induction docs with
  | nil => intro acc k0 h; simpa using h
  | cons d ds ih =>
    intro acc k0 h
    exact ih _ k0 (dictInsert_key_mono _ _ k0 acc h)

/-- The batch loop records an entry for every document it visits. -/
lemma batch_key_mem (javaOk : Bool) :
    ∀ (docs : List Doc) (acc : List (String × Bytes)) (d : Doc), d ∈ docs →
      excel_filename d.name ∈ (docs.foldl
        (fun acc d => dictInsert (excel_filename d.name) (docBytes javaOk d) acc)
        acc).map Prod.fst := by
  intro docs
  induction docs with
  | nil => intro acc d hd; simp at hd
  | cons d0 ds ih =>
    intro acc d hd
    rcases List.mem_cons.mp hd with hd | hd
    · subst hd
      exact batch_key_mono javaOk ds _ _ (dictInsert_key_mem _ _ acc)
    · exact ih _ d hd

lemma dictInsert_value_nil (k : String) :
    ∀ acc : List (String × Bytes), (∀ p ∈ acc, p.2 = ([] : Bytes)) →
      ∀ p ∈ dictInsert k [] acc, p.2 = ([] : Bytes) := by
  intro acc
  induction acc with
  | nil => intro _ p hp; simp [dictInsert] at hp; simp [hp]
  | cons q rest ih =>
    intro h p hp
    simp only [dictInsert] at hp
    by_cases hq : q.1 = k
    · rw [if_pos hq] at hp
      rcases List.mem_cons.mp hp with hp | hp
      · simp [hp]
      · exact h p (List.mem_cons_of_mem q hp)
    · rw [if_neg hq] at hp
      rcases List.mem_cons.mp hp with hp | hp
      · rw [hp]; exact h q (List.mem_cons_self q rest)
      · exact ih (fun r hr => h r (List.mem_cons_of_mem q hr)) p hp

/-- With the java check failing, every value recorded by the batch loop is
the empty byte string. -/
lemma batch_false_values :
    ∀ (docs : List Doc) (acc : List (String × Bytes)),
      (∀ p ∈ acc, p.2 = ([] : Bytes)) →
      ∀ p ∈ docs.foldl
        (fun acc d => dictInsert (excel_filename d.name) (docBytes false d) acc)
        acc, p.2 = ([] : Bytes) := by
  intro docs
  induction docs with
  | nil => intro acc h p hp; exact h p hp
  | cons d ds ih =>
    intro acc h p hp
    exact ih _ (dictInsert_value_nil _ acc h) p hp

/-- C8: extraction is performed only when `java -version` succeeds with exit
code zero; when it fails, a descriptive configuration error is reported, no
extraction happens and no bytes are written for that document, yet the batch
loop still visits and records every document, so the failure does not abort
the rest of the batch. -/
theorem java_precondition :
    (∀ (name : String) (read_pdf : Mode → Except String (List DF))
        (wfail : Nat → Option String),
      convert_pdf_to_excel false name read_pdf wfail = ⟨[], [], [javaErrMsg]⟩ ∧
      (convert_pdf_to_excel true name read_pdf wfail).modes = [Mode.stream]) ∧
    (∀ (docs : List Doc) (d : Doc), d ∈ docs →
      ∃ p ∈ batch false docs, p.1 = excel_filename d.name) := by
  refine ⟨fun name read_pdf wfail => ⟨rfl, by simpa using convert_modes true name read_pdf wfail⟩, ?_⟩
  intro docs d hd
  have := batch_key_mem false docs [] d hd
  rcases List.mem_map.mp this with ⟨p, hp, hfst⟩
  exact ⟨p, hp, hfst⟩

/-- A one-document batch used as witness input. -/
def docJ : Doc := ⟨"scan.pdf", fun _ => Except.ok [], fun _ => none⟩

/-- Witness for C8 at the singleton batch `[docJ]`. -/
theorem java_precondition_witness :
    docJ ∈ [docJ] ∧
    ∃ p ∈ batch false [docJ], p.1 = excel_filename docJ.name :=
  ⟨List.mem_singleton.mpr rfl,
    java_precondition.2 [docJ] docJ (List.mem_singleton.mpr rfl)⟩

/-- C9: when the engine finds zero tables, the output is a successful
single-sheet workbook holding the literal message "No tables found in PDF."
(sheet `Table 1`), with no error reported. -/
theorem no_tables_placeholder (name : String)
    (read_pdf : Mode → Except String (List DF)) (wfail : Nat → Option String)
    (hext : read_pdf Mode.stream = Except.ok []) (hw : wfail 0 = none) :
    convert_pdf_to_excel true name read_pdf wfail
      = ⟨[[⟨"Table 1", msgDF⟩]], [Mode.stream], []⟩ := by
  have hempty : dfEmpty (cleanup msgDF) = false := by decide
  have hclean : cleanup msgDF = msgDF := by decide
  simp only [convert_pdf_to_excel, hext, List.isEmpty_nil, if_true,
    writeLoop, hempty, Bool.false_eq_true, if_false, hw, hclean]
  rfl

/-- Witness for C9 at a concrete zero-table document. -/
theorem no_tables_placeholder_witness :
    ((fun _ => Except.ok [] : Mode → Except String (List DF)) Mode.stream
      = Except.ok []) ∧
    ((fun _ => none : Nat → Option String) 0 = none) ∧
    convert_pdf_to_excel true "doc.pdf" (fun _ => Except.ok [])
        (fun _ => none)
      = ⟨[[⟨"Table 1", msgDF⟩]], [Mode.stream], []⟩ :=
  ⟨rfl, rfl, no_tables_placeholder "doc.pdf" (fun _ => Except.ok [])
    (fun _ => none) rfl rfl⟩

/-- C10: when the java check fails, `convert_pdf_to_excel` returns before
writing anything, yet the batch loop still records an entry mapping the
derived filename to the zero-length byte string — an empty, invalid
spreadsheet entry rather than an error document or no entry. -/
theorem java_fail_empty_entry :
    (∀ (name : String) (read_pdf : Mode → Except String (List DF))
        (wfail : Nat → Option String),
      (convert_pdf_to_excel false name read_pdf wfail).buffer = []) ∧
    (∀ (docs : List Doc) (d : Doc), d ∈ docs →
      ∃ p ∈ batch false docs,
        p.1 = excel_filename d.name ∧ p.2 = ([] : Bytes)) := by
  refine ⟨fun _ _ _ => rfl, ?_⟩
  intro docs d hd
  have hkey := batch_key_mem false docs [] d hd
  rcases List.mem_map.mp hkey with ⟨p, hp, hfst⟩
  refine ⟨p, hp, hfst, ?_⟩
  exact batch_false_values docs [] (by simp) p hp

/-- Witness for C10 at the singleton batch `[docJ]`. -/
theorem java_fail_empty_entry_witness :
    docJ ∈ [docJ] ∧
    ∃ p ∈ batch false [docJ],
      p.1 = excel_filename docJ.name ∧ p.2 = ([] : Bytes) :=
  ⟨List.mem_singleton.mpr rfl,
    java_fail_empty_entry.2 [docJ] docJ (List.mem_singleton.mpr rfl)⟩
